import Mathlib

/-!
Shallow embedding of `game_of_life.py` (class `GameOfLife`): the board data
model, toroidal neighbour counting, the generation step, configuration
seeding/saving, and one iteration of the interactive loop, together with
theorems checking the specification's claims against these definitions.
-/

namespace GameOfLife

/-- A 2-D integer grid, modelling the numpy array `self.board`.
`rows`/`cols` mirror the array shape `board.shape`.  In the program the
instance fields `self.ROWS`/`self.COLS` equal the shape of every board that
is counted or stepped, because `populate_board` always allocates the board
with shape `(self.ROWS, self.COLS)` before any `update_board` or
`count_alive_neighbours` call; so the shape fields here stand for both. -/
@[ext]
structure Board where
  rows : Nat
  cols : Nat
  cells : List (List Int)
  deriving Repr, DecidableEq

/-- Shape well-formedness: the nested lists match the recorded dimensions. -/
def Board.wf (b : Board) : Prop :=
  b.cells.length = b.rows ∧ ∀ row ∈ b.cells, row.length = b.cols

/-- Read a cell at nonnegative indices, as numpy reads an in-range entry. -/
def getCell (b : Board) (i j : Nat) : Int :=
  (b.cells.getD i []).getD j 0

/-- Python/numpy index semantics on one axis of length `n`: an index in
`[0, n)` is used directly, an index in `[-n, 0)` wraps once from the end,
anything else raises IndexError (modelled as `none`). -/
def pyIndex (n : Nat) (i : Int) : Option Nat :=
  if 0 ≤ i ∧ i < (n : Int) then some i.toNat
  else if -(n : Int) ≤ i ∧ i < 0 then some (i + n).toNat
  else none

/-- One summand of the neighbour loop:
`self.board[(x + self.ROWS) % self.ROWS, (y + self.COLS) % self.COLS]`. -/
def wrapAt (b : Board) (x y : Int) : Int :=
  getCell b ((x + b.rows) % (b.rows : Int)).toNat ((y + b.cols) % (b.cols : Int)).toNat

/-- The accumulated value of the double loop
`for x in range(r - 1, r + 2): for y in range(c - 1, c + 2)` in
`count_alive_neighbours`, unrolled into its nine summands. -/
def loopSum (b : Board) (r c : Int) : Int :=
  wrapAt b (r - 1) (c - 1) + wrapAt b (r - 1) c + wrapAt b (r - 1) (c + 1) +
  wrapAt b r (c - 1) + wrapAt b r c + wrapAt b r (c + 1) +
  wrapAt b (r + 1) (c - 1) + wrapAt b (r + 1) c + wrapAt b (r + 1) (c + 1)

/-- `GameOfLife.count_alive_neighbours`: the loop total minus the centre.
With `ROWS = 0` or `COLS = 0` the `%` in the loop body raises
ZeroDivisionError, and the final subtraction `self.board[r, c]` raises
IndexError when a coordinate falls outside `[-dim, dim)`; both exceptional
outcomes are modelled as `none`. -/
def count_alive_neighbours (b : Board) (r c : Int) : Option Int :=
  if b.rows = 0 ∨ b.cols = 0 then none
  else
    match pyIndex b.rows r, pyIndex b.cols c with
    | some i, some j => some (loopSum b r c - getCell b i j)
    | _, _ => none

/-- The loop body of `update_board` for one cell of `new_board`: the cell
keeps its zero initialisation unless one of the two `if` branches writes a 1.
The `none` branch (a Python exception) keeps the zero; it is unreachable for
the iterated in-range cells since the board's dimensions are then positive. -/
def nextCell (b : Board) (r c : Nat) : Int :=
  match count_alive_neighbours b r c with
  | some n =>
      if getCell b r c = 1 then
        if n ≤ 3 ∧ 2 ≤ n then (1 : Int) else 0
      else if getCell b r c = 0 then
        if n = 3 then (1 : Int) else 0
      else 0
  | none => 0

/-- `GameOfLife.update_board`: build `new_board` (initialised by `np.zeros`)
from the neighbour counts of the current board, then install it as the
board. -/
def update_board (b : Board) : Board :=
  { rows := b.rows, cols := b.cols,
    cells := List.ofFn fun r : Fin b.rows => List.ofFn fun c : Fin b.cols =>
      nextCell b r.val c.val }

/-- A configuration pattern: a nested list of ints, as parsed from JSON. -/
abbrev Pattern := List (List Int)

/-- The configuration dictionary `self.CONFIG` (also the JSON file contents). -/
abbrev Config := List (String × Pattern)

/-- Dict lookup; the first binding for a key wins (matching `configSet`). -/
def configLookup : Config → String → Option Pattern
  | [], _ => none
  | (k, v) :: rest, key => if k = key then some v else configLookup rest key

/-- Dict update `CONFIG[key] = v`: cons a binding that shadows earlier ones. -/
def configSet (cfg : Config) (key : String) (v : Pattern) : Config :=
  (key, v) :: cfg

/-- `np.zeros((R, C), dtype=int)`. -/
def np_zeros (R C : Nat) : Board :=
  ⟨R, C, List.replicate R (List.replicate C 0)⟩

/-- A nested list is rectangular when every row has the first row's length
(`np.array` rejects ragged input). -/
def rectangular (pat : Pattern) : Prop :=
  ∀ row ∈ pat, row.length = (pat.headD []).length

instance (pat : Pattern) : Decidable (rectangular pat) := by
  unfold rectangular; infer_instance

/-- Numpy slice assignment `dst[0:pr, 0:pc] = np.array(pat)` where
`pr = len(pat)`, `pc = len(pat[0])`: the slice bounds clamp to the array's
shape, giving a destination region of shape `(min pr rows, min pc cols)`, and
the assignment succeeds only when the source shape broadcasts to that region
(each axis equal, or the source axis of extent 1); otherwise numpy raises
ValueError.  Ragged input already fails at array conversion. -/
def np_slice_assign (dst : Board) (pat : Pattern) : Except String Board :=
  if rectangular pat then
    if (pat.length = min pat.length dst.rows ∨ pat.length = 1) ∧
        ((pat.headD []).length = min (pat.headD []).length dst.cols ∨
          (pat.headD []).length = 1) then
      Except.ok
        { rows := dst.rows, cols := dst.cols,
          cells := List.ofFn fun i : Fin dst.rows => List.ofFn fun j : Fin dst.cols =>
            if i.val < min pat.length dst.rows ∧
                j.val < min (pat.headD []).length dst.cols then
              (pat.getD (if pat.length = 1 then 0 else i.val) []).getD
                (if (pat.headD []).length = 1 then 0 else j.val) 0
            else getCell dst i.val j.val }
    else Except.error "ValueError: could not broadcast"
  else Except.error "ValueError: ragged nested sequence"

/-- `GameOfLife.populate_board`, with `load_config` folded in: `file` is the
configuration file's contents, which the call installs as `self.CONFIG`.
`rnd` models the matrix sampled by `np.random.randint(0, 2, (ROWS, COLS))`,
whose entries lie in `{0, 1}`.  For a non-random option the board is first
`np.zeros((ROWS, COLS))` and then receives the pattern by slice assignment;
evaluating `len(self.CONFIG[option][0])` raises IndexError when the stored
pattern is the empty list. -/
def populate_board (file : Config) (rnd : Nat → Nat → Fin 2) (R C : Nat)
    (option : String) : Except String Board :=
  if option = "Random" then
    Except.ok ⟨R, C, List.ofFn fun i : Fin R => List.ofFn fun j : Fin C =>
      ((rnd i.val j.val).val : Int)⟩
  else
    match configLookup file option with
    | none => Except.error "KeyError"
    | some pat =>
        if pat.length = 0 then Except.error "IndexError"
        else np_slice_assign (np_zeros R C) pat

/-- `GameOfLife.save_config`: store `board.tolist()` (the cell grid itself)
under the "Saved" key and write the whole CONFIG back; the result is both the
new in-memory CONFIG and the new file contents. -/
def save_config (cfg : Config) (b : Board) : Config :=
  configSet cfg "Saved" b.cells

/-- The mutable session fields that the interactive loop touches. -/
@[ext]
structure GameState where
  ROWS : Nat
  COLS : Nat
  board : Board
  CONFIG : Config
  deriving Repr, DecidableEq

/-- `populate_board` as the method acting on the session state: it reloads
the configuration file into `self.CONFIG` and replaces `self.board`. -/
def populate_board_st (file : Config) (rnd : Nat → Nat → Fin 2) (s : GameState)
    (option : String) : Except String GameState :=
  match populate_board file rnd s.ROWS s.COLS option with
  | Except.ok b => Except.ok { s with board := b, CONFIG := file }
  | Except.error e => Except.error e

/-- `curses.KEY_ENTER`. -/
def KEY_ENTER : Nat := 343

/-- `self.OPTIONS`: the key-code-to-configuration-name table. -/
def OPTIONS (key : Nat) : Option String :=
  if key = 48 then some "Block"
  else if key = 49 then some "Beehive"
  else if key = 50 then some "Loaf"
  else if key = 51 then some "Boat"
  else if key = 52 then some "Tub"
  else if key = 53 then some "Blinker"
  else if key = 54 then some "Toad"
  else if key = 55 then some "Beacon"
  else if key = 56 then some "Glider"
  else if key = 57 then some "Saved"
  else if key = 114 then some "Random"
  else none

/-- One iteration of `GameOfLife.game_loop` on key code `key`: returns the
new session state, the new file contents, whether the board was redrawn, and
whether the loop breaks.  The source's `elif` chain is modelled in order
(Enter; s/S; a digit or r; q/Q); a key matching no branch falls through the
chain with nothing done. -/
def game_loop_step (rnd : Nat → Nat → Fin 2) (s : GameState) (file : Config)
    (key : Nat) : Except String (GameState × Config × Bool × Bool) :=
  if key = KEY_ENTER ∨ key = 10 ∨ key = 13 then
    Except.ok ({ s with board := update_board s.board }, file, true, false)
  else if key = 115 ∨ key = 83 then
    let cfg := save_config s.CONFIG s.board
    Except.ok ({ s with CONFIG := cfg }, cfg, false, false)
  else if (48 ≤ key ∧ key ≤ 57) ∨ key = 114 then
    match OPTIONS key with
    | some opt =>
        match populate_board_st file rnd s opt with
        | Except.ok s2 => Except.ok (s2, file, true, false)
        | Except.error e => Except.error e
    | none => Except.error "KeyError"
  else if key = 113 ∨ key = 81 then
    Except.ok (s, file, false, true)
  else
    Except.ok (s, file, false, false)

/-- The first, unguarded dispatch in `GameOfLife.game_controller`: the very
first key is used as `self.populate_board(self.OPTIONS[key])`, so a key
absent from OPTIONS raises KeyError before any seeding happens. -/
def game_controller_seed (file : Config) (rnd : Nat → Nat → Fin 2)
    (s : GameState) (key : Nat) : Except String GameState :=
  match OPTIONS key with
  | some opt => populate_board_st file rnd s opt
  | none => Except.error "KeyError"

/-- A board all of whose entries are 0 or 1. -/
def binaryBoard (b : Board) : Prop :=
  ∀ row ∈ b.cells, ∀ v ∈ row, v = 0 ∨ v = 1

instance (b : Board) : Decidable b.wf := by
  unfold Board.wf; infer_instance

instance (b : Board) : Decidable (binaryBoard b) := by
  unfold binaryBoard; infer_instance

/-- The eight offsets of the 3x3 block around a cell, centre excluded. -/
def neighbourOffsets : List (Int × Int) :=
  [(-1, -1), (-1, 0), (-1, 1), (0, -1), (0, 1), (1, -1), (1, 0), (1, 1)]

/-- The count described by the specification: the number of Alive entries
among the eight toroidally wrapped positions of the 3x3 block centred at
`(r, c)`, the centre itself excluded (positions counted with multiplicity,
wrapping each coordinate as `(coord + dimension) % dimension`). -/
def specNeighbourCount (b : Board) (r c : Int) : Int :=
  (neighbourOffsets.map fun p =>
    if wrapAt b (r + p.1) (c + p.2) = 1 then (1 : Int) else 0).sum

/-- The R x C board whose only Alive cell is (0, 0). -/
def singleBoard (R C : Nat) : Board :=
  ⟨R, C, List.ofFn fun i : Fin R => List.ofFn fun j : Fin C =>
    if i.val = 0 ∧ j.val = 0 then (1 : Int) else 0⟩

/-- The all-zero sampler, standing in for one concrete random draw. -/
def rnd0 : Nat → Nat → Fin 2 := fun _ _ => 0

/-! ### Helper lemmas about list access -/

lemma getD_mem_or {α : Type} (l : List α) (i : Nat) (d : α) :
    l.getD i d = d ∨ l.getD i d ∈ l := by
  by_cases h : i < l.length
  · right
    rw [List.getD_eq_getElem l d h]
    exact List.getElem_mem h
  · left
    simp [List.getD, List.getElem?_eq_none (by omega : l.length ≤ i)]

lemma getD_ofFn {α : Type} {n : Nat} (f : Fin n → α) (i : Nat) (d : α) (h : i < n) :
    (List.ofFn f).getD i d = f ⟨i, h⟩ := by
  rw [List.getD_eq_getElem (List.ofFn f) d (by simpa using h)]
  simp

lemma cellsOfFn_getD {R C : Nat} (g : Fin R → Fin C → Int) (i j : Nat)
    (hi : i < R) (hj : j < C) :
    (((List.ofFn fun r : Fin R => List.ofFn fun c : Fin C => g r c).getD i []).getD j 0)
      = g ⟨i, hi⟩ ⟨j, hj⟩ := by
  rw [getD_ofFn _ i [] hi, getD_ofFn _ j 0 hj]

/-! ### Helper lemmas about indexing and wrapping -/

lemma pyIndex_coe (n : Nat) (i : Nat) (h : i < n) : pyIndex n (i : Int) = some i := by
  unfold pyIndex
  rw [if_pos ⟨Int.natCast_nonneg i, by exact_mod_cast h⟩]
  simp

lemma getCell_np_zeros (R C i j : Nat) : getCell (np_zeros R C) i j = 0 := by
  unfold getCell np_zeros
  rcases getD_mem_or (List.replicate R (List.replicate C (0 : Int))) i [] with h | h
  · rw [h]; rfl
  · rw [List.eq_of_mem_replicate h]
    rcases getD_mem_or (List.replicate C (0 : Int)) j 0 with h2 | h2
    · exact h2
    · exact List.eq_of_mem_replicate h2

lemma wrapAt_np_zeros (R C : Nat) (x y : Int) : wrapAt (np_zeros R C) x y = 0 := by
  unfold wrapAt
  exact getCell_np_zeros R C _ _

lemma wrap_of_lt (n : Nat) (a : Int) (h0 : 0 ≤ a) (h1 : a < n) :
    (a + n) % (n : Int) = a := by
  rw [Int.add_emod_self]
  exact Int.emod_eq_of_lt h0 h1

lemma wrapAt_of_lt (b : Board) (r c : Nat) (hr : r < b.rows) (hc : c < b.cols) :
    wrapAt b (r : Int) (c : Int) = getCell b r c := by
  unfold wrapAt
  rw [wrap_of_lt b.rows r (Int.natCast_nonneg r) (by exact_mod_cast hr),
    wrap_of_lt b.cols c (Int.natCast_nonneg c) (by exact_mod_cast hc)]
  simp

lemma count_eq_of_lt (b : Board) (r c : Nat) (hr : r < b.rows) (hc : c < b.cols) :
    count_alive_neighbours b r c = some (loopSum b r c - getCell b r c) := by
  unfold count_alive_neighbours
  rw [if_neg (by omega), pyIndex_coe b.rows r hr, pyIndex_coe b.cols c hc]

lemma getCell_binary (b : Board) (hwf : b.wf) (hb : binaryBoard b) (i j : Nat)
    (hi : i < b.rows) (hj : j < b.cols) :
    getCell b i j = 0 ∨ getCell b i j = 1 := by
  unfold getCell
  have hlen : i < b.cells.length := by rw [hwf.1]; exact hi
  rw [List.getD_eq_getElem b.cells [] hlen]
  have hrow : b.cells[i] ∈ b.cells := List.getElem_mem hlen
  have hrlen : j < b.cells[i].length := by rw [hwf.2 _ hrow]; exact hj
  rw [List.getD_eq_getElem _ 0 hrlen]
  exact hb _ hrow _ (List.getElem_mem hrlen)

lemma wrapAt_binary (b : Board) (hwf : b.wf) (hb : binaryBoard b)
    (hR : 0 < b.rows) (hC : 0 < b.cols) (x y : Int) :
    wrapAt b x y = 0 ∨ wrapAt b x y = 1 := by
  unfold wrapAt
  have hRne : (b.rows : Int) ≠ 0 := by exact_mod_cast hR.ne'
  have hCne : (b.cols : Int) ≠ 0 := by exact_mod_cast hC.ne'
  have hRpos : (0 : Int) < (b.rows : Int) := by exact_mod_cast hR
  have hCpos : (0 : Int) < (b.cols : Int) := by exact_mod_cast hC
  have h1 := Int.emod_nonneg (x + b.rows) hRne
  have h2 := Int.emod_lt_of_pos (x + b.rows) hRpos
  have h3 := Int.emod_nonneg (y + b.cols) hCne
  have h4 := Int.emod_lt_of_pos (y + b.cols) hCpos
  exact getCell_binary b hwf hb _ _ (by omega) (by omega)

lemma loopSum_np_zeros (R C : Nat) (r c : Int) : loopSum (np_zeros R C) r c = 0 := by
  unfold loopSum
  simp [wrapAt_np_zeros]

lemma nextCell_eq (b : Board) (r c : Nat) (hr : r < b.rows) (hc : c < b.cols) :
    nextCell b r c =
      (if getCell b r c = 1 then
        if loopSum b r c - getCell b r c ≤ 3 ∧ 2 ≤ loopSum b r c - getCell b r c
        then (1 : Int) else 0
      else if getCell b r c = 0 then
        if loopSum b r c - getCell b r c = 3 then (1 : Int) else 0
      else 0) := by
  unfold nextCell
  rw [count_eq_of_lt b r c hr hc]

lemma getCell_update_board (b : Board) (r c : Nat) (hr : r < b.rows) (hc : c < b.cols) :
    getCell (update_board b) r c = nextCell b r c := by
  unfold getCell
  simp only [update_board]
  rw [getD_ofFn _ r [] hr, getD_ofFn _ c 0 hc]

/-- C9: an all-Dead board of any size remains all-Dead after `update_board`:
for every cell the neighbour count is 0, so no branch of the rule writes a 1
and the freshly zeroed buffer is installed unchanged. -/
theorem c9_dead_board_stable (R C : Nat) :
    update_board (np_zeros R C) = np_zeros R C := by
  have hcells : (update_board (np_zeros R C)).cells = (np_zeros R C).cells := by
    apply List.ext_getElem
    · simp [update_board, np_zeros]
    · intro i h1 h2
      apply List.ext_getElem
      · simp [update_board, np_zeros]
      · intro j hj1 hj2
        have hi : i < R := by simpa [np_zeros] using h2
        have hj : j < C := by simpa [np_zeros] using hj2
        trans (0 : Int)
        · simp only [update_board, List.getElem_ofFn]
          rw [nextCell_eq (np_zeros R C) i j hi hj]
          simp [loopSum_np_zeros, getCell_np_zeros]
        · simp [np_zeros]
  exact Board.ext rfl rfl hcells

lemma specNeighbourCount_as_sum (b : Board) (hwf : b.wf) (hb : binaryBoard b)
    (hR : 0 < b.rows) (hC : 0 < b.cols) (r c : Int) :
    specNeighbourCount b r c =
      wrapAt b (r - 1) (c - 1) + wrapAt b (r - 1) c + wrapAt b (r - 1) (c + 1) +
      wrapAt b r (c - 1) + wrapAt b r (c + 1) +
      wrapAt b (r + 1) (c - 1) + wrapAt b (r + 1) c + wrapAt b (r + 1) (c + 1) := by
  have ind : ∀ x y : Int, (if wrapAt b x y = 1 then (1 : Int) else 0) = wrapAt b x y := by
    intro x y
    rcases wrapAt_binary b hwf hb hR hC x y with h | h <;> simp [h]
  unfold specNeighbourCount neighbourOffsets
  simp only [List.map_cons, List.map_nil, List.sum_cons, List.sum_nil, ind, add_zero,
    sub_eq_add_neg]
  ring

lemma specNeighbourCount_eq (b : Board) (hwf : b.wf) (hb : binaryBoard b)
    (r c : Nat) (hr : r < b.rows) (hc : c < b.cols) :
    specNeighbourCount b r c = loopSum b r c - getCell b r c := by
  rw [specNeighbourCount_as_sum b hwf hb (by omega) (by omega) r c]
  unfold loopSum
  rw [wrapAt_of_lt b r c hr hc]
  ring

/-- C5: for every binary board and every in-range cell, the neighbour count
returns exactly the specification's count — the Alive entries among the eight
toroidally wrapped positions of the 3x3 block, centre excluded — and that
value lies in [0, 8]. -/
theorem c5_neighbour_count_spec (b : Board) (hwf : b.wf) (hb : binaryBoard b)
    (r c : Nat) (hr : r < b.rows) (hc : c < b.cols) :
    count_alive_neighbours b r c = some (specNeighbourCount b r c) ∧
    0 ≤ specNeighbourCount b r c ∧ specNeighbourCount b r c ≤ 8 := by
  have hR : 0 < b.rows := by omega
  have hC : 0 < b.cols := by omega
  have hw : ∀ x y : Int, 0 ≤ wrapAt b x y ∧ wrapAt b x y ≤ 1 := by
    intro x y
    rcases wrapAt_binary b hwf hb hR hC x y with h | h <;> simp [h]
  have hsum := specNeighbourCount_as_sum b hwf hb hR hC r c
  have h1 := hw ((r : Int) - 1) ((c : Int) - 1)
  have h2 := hw ((r : Int) - 1) (c : Int)
  have h3 := hw ((r : Int) - 1) ((c : Int) + 1)
  have h4 := hw (r : Int) ((c : Int) - 1)
  have h5 := hw (r : Int) ((c : Int) + 1)
  have h6 := hw ((r : Int) + 1) ((c : Int) - 1)
  have h7 := hw ((r : Int) + 1) (c : Int)
  have h8 := hw ((r : Int) + 1) ((c : Int) + 1)
  refine ⟨?_, by omega, by omega⟩
  rw [count_eq_of_lt b r c hr hc, specNeighbourCount_eq b hwf hb r c hr hc]

/-- C1: the generation step computes, for every cell of a binary board, its
next state from the neighbour count `n` taken against the prior board: an
Alive cell stays Alive iff `2 ≤ n ≤ 3`, a Dead cell becomes Alive iff
`n = 3`, every other case yields Dead; the new values live in a fresh buffer
of the same shape, the input board being read only through
`count_alive_neighbours`/`getCell`. -/
theorem c1_step_rule (b : Board) (hwf : b.wf) (hb : binaryBoard b)
    (r c : Nat) (hr : r < b.rows) (hc : c < b.cols) :
    (update_board b).rows = b.rows ∧ (update_board b).cols = b.cols ∧
    ∃ n : Int, count_alive_neighbours b r c = some n ∧
      getCell (update_board b) r c =
        (if getCell b r c = 1 then if 2 ≤ n ∧ n ≤ 3 then 1 else 0
         else if n = 3 then 1 else 0) := by
  refine ⟨rfl, rfl, loopSum b r c - getCell b r c, count_eq_of_lt b r c hr hc, ?_⟩
  rw [getCell_update_board b r c hr hc, nextCell_eq b r c hr hc]
  rcases getCell_binary b hwf hb r c hr hc with h | h <;> rw [h] <;> split_ifs <;> omega

/-- A vertical blinker on a 3x3 board, used to instantiate the theorems. -/
def bWit : Board := ⟨3, 3, [[0, 1, 0], [0, 1, 0], [0, 1, 0]]⟩

/-- Witness for `c1_step_rule` at the blinker's centre cell. -/
theorem c1_step_rule_witness :
    (update_board bWit).rows = bWit.rows ∧ (update_board bWit).cols = bWit.cols ∧
    ∃ n : Int, count_alive_neighbours bWit 1 1 = some n ∧
      getCell (update_board bWit) 1 1 =
        (if getCell bWit 1 1 = 1 then if 2 ≤ n ∧ n ≤ 3 then 1 else 0
         else if n = 3 then 1 else 0) :=
  c1_step_rule bWit (by decide) (by decide) 1 1 (by decide) (by decide)

/-- Witness for `c5_neighbour_count_spec` at the blinker's centre cell. -/
theorem c5_neighbour_count_spec_witness :
    count_alive_neighbours bWit 1 1 = some (specNeighbourCount bWit 1 1) ∧
    0 ≤ specNeighbourCount bWit 1 1 ∧ specNeighbourCount bWit 1 1 ≤ 8 :=
  c5_neighbour_count_spec bWit (by decide) (by decide) 1 1 (by decide) (by decide)

lemma getD_getD_binary (pat : Pattern)
    (hp : ∀ row ∈ pat, ∀ v ∈ row, v = 0 ∨ v = 1) (i j : Nat) :
    (pat.getD i []).getD j 0 = 0 ∨ (pat.getD i []).getD j 0 = 1 := by
  rcases getD_mem_or pat i [] with he | hmem
  · rw [he]
    left
    rfl
  · rcases getD_mem_or (pat.getD i []) j 0 with he2 | hmem2
    · left
      exact he2
    · exact hp _ hmem _ hmem2

/-- C10: every board-mutating operation preserves the binary-cell invariant:
`update_board` writes only 0 or 1 into the new buffer, and a successful
`populate_board` yields a binary board whenever the stored template is binary
(the random fill draws from {0, 1} by the interface of `randint(0, 2)`). -/
theorem c10_binary_invariant :
    (∀ b : Board, binaryBoard (update_board b)) ∧
    (∀ (file : Config) (rnd : Nat → Nat → Fin 2) (R C : Nat) (option : String)
      (b : Board),
      populate_board file rnd R C option = Except.ok b →
      (∀ pat, configLookup file option = some pat →
        ∀ row ∈ pat, ∀ v ∈ row, v = 0 ∨ v = 1) →
      binaryBoard b) := by
  constructor
  · intro b row hrow v hv
    simp only [update_board, List.mem_ofFn] at hrow
    obtain ⟨i, rfl⟩ := hrow
    simp only [List.mem_ofFn] at hv
    obtain ⟨j, rfl⟩ := hv
    show nextCell b i.val j.val = 0 ∨ nextCell b i.val j.val = 1
    unfold nextCell
    cases count_alive_neighbours b (i.val : Int) (j.val : Int) with
    | none => left; rfl
    | some n =>
        simp only []
        split_ifs <;> omega
  · intro file rnd R C option b hok hpat
    unfold populate_board at hok
    by_cases hopt : option = "Random"
    · rw [if_pos hopt] at hok
      injection hok with hok
      subst hok
      intro row hrow v hv
      simp only [List.mem_ofFn] at hrow
      obtain ⟨i, rfl⟩ := hrow
      simp only [List.mem_ofFn] at hv
      obtain ⟨j, rfl⟩ := hv
      show ((rnd i.val j.val).val : Int) = 0 ∨ ((rnd i.val j.val).val : Int) = 1
      have := (rnd i.val j.val).isLt
      omega
    · rw [if_neg hopt] at hok
      cases hcfg : configLookup file option with
      | none =>
          simp only [hcfg] at hok
          exact Except.noConfusion hok
      | some pat =>
          simp only [hcfg] at hok
          by_cases hlen : pat.length = 0
          · rw [if_pos hlen] at hok
            exact absurd hok (by simp)
          · rw [if_neg hlen] at hok
            simp only [np_slice_assign] at hok
            split_ifs at hok
            all_goals
              injection hok with hok
              subst hok
              intro row hrow v hv
              simp only [List.mem_ofFn] at hrow
              obtain ⟨i, rfl⟩ := hrow
              simp only [List.mem_ofFn] at hv
              obtain ⟨j, rfl⟩ := hv
              beta_reduce
              split_ifs with hin <;>
                first
                  | exact getD_getD_binary pat (hpat pat hcfg) _ _
                  | exact Or.inl (getCell_np_zeros R C i.val j.val)

/-- Witness for `c10_binary_invariant`: a stepped board and a board seeded
with the binary Block pattern. -/
theorem c10_binary_invariant_witness :
    binaryBoard (update_board bWit) ∧
    binaryBoard ⟨4, 4, [[1, 1, 0, 0], [1, 1, 0, 0], [0, 0, 0, 0], [0, 0, 0, 0]]⟩ := by
  constructor
  · exact c10_binary_invariant.1 bWit
  · apply c10_binary_invariant.2 [("Block", [[1, 1], [1, 1]])] rnd0 4 4 "Block" _ (by rfl)
    intro pat h
    rw [show configLookup [("Block", [[1, 1], [1, 1]])] "Block" = some [[1, 1], [1, 1]]
      from rfl] at h
    injection h with h
    subst h
    decide

lemma headD_mem {α : Type} (l : List α) (d : α) (h : l ≠ []) : l.headD d ∈ l := by
  cases l with
  | nil => exact absurd rfl h
  | cons a t => exact List.mem_cons_self a t

lemma wf_rectangular (b : Board) (hwf : b.wf) (hne : b.cells ≠ []) :
    rectangular b.cells := by
  intro row hrow
  rw [hwf.2 row hrow, hwf.2 _ (headD_mem b.cells [] hne)]

lemma ofFn_getCell (b : Board) (hwf : b.wf) :
    (List.ofFn fun i : Fin b.rows => List.ofFn fun j : Fin b.cols => getCell b i.val j.val)
      = b.cells := by
  apply List.ext_getElem
  · simp [hwf.1]
  · intro i h1 h2
    simp only [List.getElem_ofFn]
    apply List.ext_getElem
    · simp [hwf.2 _ (List.getElem_mem h2)]
    · intro j hj1 hj2
      simp only [List.getElem_ofFn]
      unfold getCell
      rw [List.getD_eq_getElem b.cells [] h2, List.getD_eq_getElem _ 0 hj2]

/-- Restoring the "Saved" slot directly after a save reproduces the board,
provided the session dimensions still match the board's shape. -/
lemma populate_saved (cfg : Config) (rnd : Nat → Nat → Fin 2) (b : Board)
    (hwf : b.wf) (h1 : 1 ≤ b.rows) :
    populate_board (save_config cfg b) rnd b.rows b.cols "Saved" = Except.ok b := by
  have hne : b.cells ≠ [] := by
    intro h
    have := hwf.1
    rw [h] at this
    simp at this
    omega
  have hlen : b.cells.length = b.rows := hwf.1
  have hhead : (b.cells.headD []).length = b.cols := hwf.2 _ (headD_mem _ _ hne)
  unfold populate_board
  rw [if_neg (by decide : ¬("Saved" = "Random"))]
  simp only [show configLookup (save_config cfg b) "Saved" = some b.cells from by
    unfold save_config configSet configLookup
    rw [if_pos rfl]]
  rw [if_neg (by omega : ¬(b.cells.length = 0))]
  unfold np_slice_assign
  rw [if_pos (wf_rectangular b hwf hne)]
  rw [if_pos (by
    constructor
    · left
      rw [hlen]
      show b.rows = min b.rows (np_zeros b.rows b.cols).rows
      simp [np_zeros]
    · left
      rw [hhead]
      show b.cols = min b.cols (np_zeros b.rows b.cols).cols
      simp [np_zeros])]
  congr 1
  apply Board.ext
  · rfl
  · rfl
  · dsimp only [np_zeros]
    conv_rhs => rw [← ofFn_getCell b hwf]
    congr 1
    funext i
    congr 1
    funext j
    rw [if_pos (by
      refine ⟨?_, ?_⟩
      · have := i.isLt
        omega
      · have := j.isLt
        omega)]
    have hi0 : (if b.cells.length = 1 then 0 else i.val) = i.val := by
      split_ifs with h
      · have := i.isLt
        omega
      · rfl
    have hj0 : (if (b.cells.headD []).length = 1 then 0 else j.val) = j.val := by
      split_ifs with h
      · have := j.isLt
        omega
      · rfl
    rw [hi0, hj0]
    rfl

/-- C7: saving the current board and then seeding with the "Saved" option
reproduces exactly the board that was saved, cell for cell. -/
theorem c7_save_restore_roundtrip (s : GameState) (rnd : Nat → Nat → Fin 2)
    (hwf : s.board.wf) (hR : s.board.rows = s.ROWS) (hC : s.board.cols = s.COLS)
    (hpos : 1 ≤ s.ROWS) :
    ∃ s2 : GameState,
      populate_board_st (save_config s.CONFIG s.board) rnd s "Saved" = Except.ok s2 ∧
      s2.board = s.board := by
  unfold populate_board_st
  rw [← hR, ← hC, populate_saved s.CONFIG rnd s.board hwf (by omega)]
  exact ⟨_, rfl, rfl⟩

/-- Witness for `c7_save_restore_roundtrip` on a concrete 2 x 3 session. -/
theorem c7_save_restore_roundtrip_witness :
    ∃ s2 : GameState,
      populate_board_st
        (save_config [] (Board.mk 2 3 [[1, 0, 1], [0, 1, 0]])) rnd0
        (GameState.mk 2 3 (Board.mk 2 3 [[1, 0, 1], [0, 1, 0]]) []) "Saved"
        = Except.ok s2 ∧
      s2.board = Board.mk 2 3 [[1, 0, 1], [0, 1, 0]] :=
  c7_save_restore_roundtrip
    (GameState.mk 2 3 (Board.mk 2 3 [[1, 0, 1], [0, 1, 0]]) []) rnd0
    (by decide) rfl rfl (by decide)

/-- C8: seeding with a fixed (non-random) pattern is idempotent - the board
is rebuilt from zeros on every call, so repeating the seed changes nothing. -/
theorem c8_seed_idempotent (file : Config) (rnd : Nat → Nat → Fin 2)
    (s s1 : GameState) (option : String) (_hopt : option ≠ "Random")
    (h : populate_board_st file rnd s option = Except.ok s1) :
    populate_board_st file rnd s1 option = Except.ok s1 := by
  unfold populate_board_st at h ⊢
  cases e : populate_board file rnd s.ROWS s.COLS option with
  | error msg => rw [e] at h; exact Except.noConfusion h
  | ok b =>
      rw [e] at h
      injection h with h
      subst h
      rw [show populate_board file rnd s.ROWS s.COLS option = Except.ok b from e]

/-- Witness for `c8_seed_idempotent`: seeding the Block pattern twice on a
4 x 4 session. -/
theorem c8_seed_idempotent_witness :
    populate_board_st [("Block", [[1, 1], [1, 1]])] rnd0
      (GameState.mk 4 4
        (Board.mk 4 4 [[1, 1, 0, 0], [1, 1, 0, 0], [0, 0, 0, 0], [0, 0, 0, 0]])
        [("Block", [[1, 1], [1, 1]])])
      "Block"
      = Except.ok
        (GameState.mk 4 4
          (Board.mk 4 4 [[1, 1, 0, 0], [1, 1, 0, 0], [0, 0, 0, 0], [0, 0, 0, 0]])
          [("Block", [[1, 1], [1, 1]])]) :=
  c8_seed_idempotent [("Block", [[1, 1], [1, 1]])] rnd0
    (GameState.mk 4 4 (Board.mk 4 4 (List.replicate 4 (List.replicate 4 0))) [])
    (GameState.mk 4 4
      (Board.mk 4 4 [[1, 1, 0, 0], [1, 1, 0, 0], [0, 0, 0, 0], [0, 0, 0, 0]])
      [("Block", [[1, 1], [1, 1]])])
    "Block" (by decide) (by rfl)

/-- The key codes that `game_loop` reacts to; everything else falls through
the `elif` chain. -/
def recognizedKey (key : Nat) : Prop :=
  key = KEY_ENTER ∨ key = 10 ∨ key = 13 ∨ key = 115 ∨ key = 83 ∨
  (48 ≤ key ∧ key ≤ 57) ∨ key = 114 ∨ key = 113 ∨ key = 81

instance (key : Nat) : Decidable (recognizedKey key) := by
  unfold recognizedKey; infer_instance

/-- Counterexample to C4 as stated: the very first input event is not
guarded - `game_controller` looks the key up in OPTIONS unconditionally, so
the unrecognized key 120 (letter x) raises KeyError there instead of being
silently ignored. -/
theorem c4_first_key_counterexample :
    game_controller_seed [] rnd0 (GameState.mk 2 2 (np_zeros 2 2) []) 120
      = Except.error "KeyError" := by
  rfl

/-- C4 (amended): inside `game_loop` an unrecognized key is a silent no-op:
the session state, the configuration file, the redraw flag and the quit flag
are all untouched.  (The first key read by `game_controller` is however
unguarded, see the counterexample.) -/
theorem c4_unrecognized_ignored (rnd : Nat → Nat → Fin 2) (s : GameState)
    (file : Config) (key : Nat) (h : ¬ recognizedKey key) :
    game_loop_step rnd s file key = Except.ok (s, file, false, false) := by
  have h2 : ¬(key = 343 ∨ key = 10 ∨ key = 13 ∨ key = 115 ∨ key = 83 ∨
      (48 ≤ key ∧ key ≤ 57) ∨ key = 114 ∨ key = 113 ∨ key = 81) := by
    unfold recognizedKey KEY_ENTER at h
    exact h
  unfold game_loop_step KEY_ENTER
  rw [if_neg (by omega), if_neg (by omega), if_neg (by omega), if_neg (by omega)]

/-- Witness for `c4_unrecognized_ignored` at key 120. -/
theorem c4_unrecognized_ignored_witness :
    game_loop_step rnd0 (GameState.mk 2 2 (np_zeros 2 2) []) [] 120
      = Except.ok ((GameState.mk 2 2 (np_zeros 2 2) []), [], false, false) :=
  c4_unrecognized_ignored rnd0 (GameState.mk 2 2 (np_zeros 2 2) []) [] 120 (by decide)

/-- Counterexample to C2 as stated: a 3 x 3 pattern seeded onto a 2 x 2 board
is not silently truncated - numpy refuses to broadcast the pattern into the
clamped slice and the seeding raises a ValueError. -/
theorem c2_oversized_counterexample :
    populate_board [("Block", [[1, 1, 1], [1, 1, 1], [1, 1, 1]])] rnd0 2 2 "Block"
      = Except.error "ValueError: could not broadcast" := by
  rfl

/-- C2 (amended): seeding a stored pattern strictly larger than a nonempty
board in either axis raises an error (the numpy slice assignment fails to
broadcast); no silent truncation happens. -/
theorem c2_oversized_pattern_errors (file : Config) (rnd : Nat → Nat → Fin 2)
    (R C : Nat) (option : String) (pat : Pattern)
    (hR : 1 ≤ R) (hC : 1 ≤ C) (hopt : option ≠ "Random")
    (hcfg : configLookup file option = some pat)
    (hbig : R < pat.length ∨ C < (pat.headD []).length) :
    ∃ e, populate_board file rnd R C option = Except.error e := by
  unfold populate_board
  rw [if_neg hopt]
  simp only [hcfg]
  by_cases hlen : pat.length = 0
  · rw [if_pos hlen]
    exact ⟨_, rfl⟩
  · rw [if_neg hlen]
    unfold np_slice_assign
    by_cases hrect : rectangular pat
    · rw [if_pos hrect]
      rw [if_neg (by
        intro hcon
        have hrows : (np_zeros R C).rows = R := rfl
        have hcols : (np_zeros R C).cols = C := rfl
        rw [hrows, hcols] at hcon
        rcases hbig with hb | hb
        · rcases hcon.1 with h | h <;> omega
        · rcases hcon.2 with h | h <;> omega)]
      exact ⟨_, rfl⟩
    · rw [if_neg hrect]
      exact ⟨_, rfl⟩

/-- Witness for `c2_oversized_pattern_errors`: the 3 x 3 all-ones pattern on
a 2 x 2 board. -/
theorem c2_oversized_pattern_errors_witness :
    ∃ e, populate_board [("Block", [[1, 1, 1], [1, 1, 1], [1, 1, 1]])] rnd0 2 2 "Block"
      = Except.error e :=
  c2_oversized_pattern_errors [("Block", [[1, 1, 1], [1, 1, 1], [1, 1, 1]])] rnd0
    2 2 "Block" [[1, 1, 1], [1, 1, 1], [1, 1, 1]]
    (by decide) (by decide) (by decide) (by rfl) (by decide)

lemma pyIndex_of_nonneg_lt (n : Nat) (i : Int) (h0 : 0 ≤ i) (h1 : i < n) :
    pyIndex n i = some i.toNat := by
  unfold pyIndex
  rw [if_pos ⟨h0, h1⟩]

lemma pyIndex_emod (n : Nat) (_hn : 1 ≤ n) (i : Int)
    (h1 : -(n : Int) ≤ i) (h2 : i < n) :
    pyIndex n i = some (i % (n : Int)).toNat := by
  by_cases h : 0 ≤ i
  · rw [pyIndex_of_nonneg_lt n i h h2, Int.emod_eq_of_lt h h2]
  · have hneg : i < 0 := by omega
    unfold pyIndex
    rw [if_neg (by omega), if_pos ⟨h1, hneg⟩]
    have he : i % (n : Int) = i + n := by
      have h3 : (i + n) % (n : Int) = i + n :=
        Int.emod_eq_of_lt (by omega) (by omega)
      rw [← Int.add_emod_self, h3]
    rw [he]

lemma pyIndex_emod_self (n : Nat) (hn : 1 ≤ n) (i : Int) :
    pyIndex n (i % (n : Int)) = some (i % (n : Int)).toNat := by
  have h1 := Int.emod_nonneg i (show (n : Int) ≠ 0 by
    have : (0 : Int) < n := by exact_mod_cast hn
    omega)
  have h2 := Int.emod_lt_of_pos i (show (0 : Int) < n by exact_mod_cast hn)
  exact pyIndex_of_nonneg_lt n _ h1 h2

lemma pyIndex_none (n : Nat) (i : Int) (h : (n : Int) ≤ i ∨ i < -(n : Int)) :
    pyIndex n i = none := by
  unfold pyIndex
  rw [if_neg (by omega), if_neg (by omega)]

lemma wrapAt_congr (b : Board) (x x2 y y2 : Int)
    (hx : x % (b.rows : Int) = x2 % (b.rows : Int))
    (hy : y % (b.cols : Int) = y2 % (b.cols : Int)) :
    wrapAt b x y = wrapAt b x2 y2 := by
  unfold wrapAt
  rw [Int.add_emod_self, Int.add_emod_self, hx, hy, ← Int.add_emod_self (a := x2),
    ← Int.add_emod_self (a := y2)]

lemma loopSum_congr (b : Board) (r r2 c c2 : Int)
    (hr : r % (b.rows : Int) = r2 % (b.rows : Int))
    (hc : c % (b.cols : Int) = c2 % (b.cols : Int)) :
    loopSum b r c = loopSum b r2 c2 := by
  have hr1 : (r - 1) % (b.rows : Int) = (r2 - 1) % (b.rows : Int) := by
    rw [Int.sub_emod, hr, ← Int.sub_emod]
  have hr2 : (r + 1) % (b.rows : Int) = (r2 + 1) % (b.rows : Int) := by
    rw [Int.add_emod, hr, ← Int.add_emod]
  have hc1 : (c - 1) % (b.cols : Int) = (c2 - 1) % (b.cols : Int) := by
    rw [Int.sub_emod, hc, ← Int.sub_emod]
  have hc2 : (c + 1) % (b.cols : Int) = (c2 + 1) % (b.cols : Int) := by
    rw [Int.add_emod, hc, ← Int.add_emod]
  unfold loopSum
  rw [wrapAt_congr b (r - 1) (r2 - 1) (c - 1) (c2 - 1) hr1 hc1,
    wrapAt_congr b (r - 1) (r2 - 1) c c2 hr1 hc,
    wrapAt_congr b (r - 1) (r2 - 1) (c + 1) (c2 + 1) hr1 hc2,
    wrapAt_congr b r r2 (c - 1) (c2 - 1) hr hc1,
    wrapAt_congr b r r2 c c2 hr hc,
    wrapAt_congr b r r2 (c + 1) (c2 + 1) hr hc2,
    wrapAt_congr b (r + 1) (r2 + 1) (c - 1) (c2 - 1) hr2 hc1,
    wrapAt_congr b (r + 1) (r2 + 1) c c2 hr2 hc,
    wrapAt_congr b (r + 1) (r2 + 1) (c + 1) (c2 + 1) hr2 hc2]

/-- Counterexample to C3 as stated: on a 2 x 2 board the row value 2 (equal
to the dimension) is not wrapped - the final `self.board[r, c]` lookup raises
IndexError (modelled as `none`). -/
theorem c3_out_of_range_counterexample :
    count_alive_neighbours (singleBoard 2 2) 2 0 = none := by
  rfl

/-- C3 (amended): `count_alive_neighbours` accepts coordinates down to
`-dim` (in particular -1), where Python negative indexing makes the result
agree with the wrapped in-range cell; but a coordinate at or beyond the
dimension (in particular `dim` itself) raises IndexError instead of
wrapping. -/
theorem c3_wrap_amended (b : Board) (r c : Int)
    (hR : 1 ≤ b.rows) (hC : 1 ≤ b.cols) :
    ((-(b.rows : Int) ≤ r ∧ r < b.rows ∧ -(b.cols : Int) ≤ c ∧ c < b.cols) →
      count_alive_neighbours b r c
        = count_alive_neighbours b (r % (b.rows : Int)) (c % (b.cols : Int)) ∧
      (count_alive_neighbours b r c).isSome) ∧
    (((b.rows : Int) ≤ r ∨ r < -(b.rows : Int) ∨
        (b.cols : Int) ≤ c ∨ c < -(b.cols : Int)) →
      count_alive_neighbours b r c = none) := by
  constructor
  · rintro ⟨h1, h2, h3, h4⟩
    have hrr : r % (b.rows : Int) % (b.rows : Int) = r % (b.rows : Int) :=
      Int.emod_emod_of_dvd r dvd_rfl
    have hcc : c % (b.cols : Int) % (b.cols : Int) = c % (b.cols : Int) :=
      Int.emod_emod_of_dvd c dvd_rfl
    have hL : count_alive_neighbours b r c
        = some (loopSum b (r % (b.rows : Int)) (c % (b.cols : Int))
            - getCell b (r % (b.rows : Int)).toNat (c % (b.cols : Int)).toNat) := by
      unfold count_alive_neighbours
      rw [if_neg (by omega), pyIndex_emod b.rows hR r h1 h2,
        pyIndex_emod b.cols hC c h3 h4,
        loopSum_congr b r (r % (b.rows : Int)) c (c % (b.cols : Int))
          hrr.symm hcc.symm]
    have hr2 : count_alive_neighbours b (r % (b.rows : Int)) (c % (b.cols : Int))
        = some (loopSum b (r % (b.rows : Int)) (c % (b.cols : Int))
            - getCell b (r % (b.rows : Int)).toNat (c % (b.cols : Int)).toNat) := by
      unfold count_alive_neighbours
      rw [if_neg (by omega), pyIndex_emod_self b.rows hR r,
        pyIndex_emod_self b.cols hC c]
    refine ⟨hL.trans hr2.symm, ?_⟩
    rw [hL]
    rfl
  · intro hout
    unfold count_alive_neighbours
    rw [if_neg (by omega)]
    rcases hout with h | h | h | h
    · rw [pyIndex_none b.rows r (Or.inl h)]
    · rw [pyIndex_none b.rows r (Or.inr h)]
    · rw [pyIndex_none b.cols c (Or.inl h)]
      cases pyIndex b.rows r <;> rfl
    · rw [pyIndex_none b.cols c (Or.inr h)]
      cases pyIndex b.rows r <;> rfl

/-- Witness for `c3_wrap_amended`: row -1 on a 3 x 3 board wraps to row 2. -/
theorem c3_wrap_amended_witness :
    count_alive_neighbours (singleBoard 3 3) (-1) 0
      = count_alive_neighbours (singleBoard 3 3) ((-1) % (3 : Int)) (0 % (3 : Int)) ∧
    (count_alive_neighbours (singleBoard 3 3) (-1) 0).isSome :=
  (c3_wrap_amended (singleBoard 3 3) (-1) 0 (by decide) (by decide)).1
    (by refine ⟨by decide, by decide, by decide, by decide⟩)

lemma singleBoard_rows (R C : Nat) : (singleBoard R C).rows = R := rfl

lemma singleBoard_cols (R C : Nat) : (singleBoard R C).cols = C := rfl

lemma getCell_singleBoard (R C i j : Nat) (hi : i < R) (hj : j < C) :
    getCell (singleBoard R C) i j = if i = 0 ∧ j = 0 then 1 else 0 := by
  simp only [getCell, singleBoard]
  rw [cellsOfFn_getD _ i j hi hj]

lemma wrapAt_singleBoard (R C : Nat) (hR : 0 < R) (hC : 0 < C) (x y : Int) :
    wrapAt (singleBoard R C) x y
      = if (x + R) % (R : Int) = 0 ∧ (y + C) % (C : Int) = 0 then 1 else 0 := by
  have hRne : (R : Int) ≠ 0 := by exact_mod_cast hR.ne'
  have hCne : (C : Int) ≠ 0 := by exact_mod_cast hC.ne'
  have h1 := Int.emod_nonneg (x + R) hRne
  have h2 := Int.emod_lt_of_pos (x + R) (show (0 : Int) < R by exact_mod_cast hR)
  have h3 := Int.emod_nonneg (y + C) hCne
  have h4 := Int.emod_lt_of_pos (y + C) (show (0 : Int) < C by exact_mod_cast hC)
  unfold wrapAt
  rw [singleBoard_rows, singleBoard_cols]
  rw [getCell_singleBoard R C _ _ (by omega) (by omega)]
  refine if_congr ?_ rfl rfl
  omega

lemma indicator_zero {p : Prop} [Decidable p] (h : ¬ p) :
    (if p then (1 : Int) else 0) = 0 := if_neg h

lemma indicator_one {p : Prop} [Decidable p] (h : p) :
    (if p then (1 : Int) else 0) = 1 := if_pos h

/-- Counterexample to C6 as stated: with no lower bound on the board size the
wrapped positions coincide - on a 2 x 2 board whose only Alive cell is (0,0),
the count at (R-1, C-1) = (1,1) is 4, not 1. -/
theorem c6_wrap_counterexample :
    count_alive_neighbours (singleBoard 2 2) 1 1 ≠ some 1 := by
  decide

/-- C6 (amended): on a board of size at least 3 x 3 whose only Alive cell is
(0, 0), the neighbour count equals 1 at the three wrapped corner/edge
coordinates (R-1, C-1), (R-1, 0) and (0, C-1). -/
theorem c6_wrap_neighbours (R C : Nat) (hR : 3 ≤ R) (hC : 3 ≤ C) :
    count_alive_neighbours (singleBoard R C) ((R : Int) - 1) ((C : Int) - 1)
      = some 1 ∧
    count_alive_neighbours (singleBoard R C) ((R : Int) - 1) 0 = some 1 ∧
    count_alive_neighbours (singleBoard R C) 0 ((C : Int) - 1) = some 1 := by
  have e1 : ((R : Int) - 1 - 1 + R) % (R : Int) = (R : Int) - 2 := by
    rw [show ((R : Int) - 1 - 1 + R) = ((R : Int) - 2) + R from by ring,
      Int.add_emod_self, Int.emod_eq_of_lt (by omega) (by omega)]
  have e2 : ((R : Int) - 1 + R) % (R : Int) = (R : Int) - 1 := by
    rw [Int.add_emod_self, Int.emod_eq_of_lt (by omega) (by omega)]
  have e3 : ((R : Int) - 1 + 1 + R) % (R : Int) = 0 := by
    rw [show ((R : Int) - 1 + 1 + R) = 0 + (R : Int) * 2 from by ring,
      Int.add_mul_emod_self_left, Int.zero_emod]
  have f1 : ((C : Int) - 1 - 1 + C) % (C : Int) = (C : Int) - 2 := by
    rw [show ((C : Int) - 1 - 1 + C) = ((C : Int) - 2) + C from by ring,
      Int.add_emod_self, Int.emod_eq_of_lt (by omega) (by omega)]
  have f2 : ((C : Int) - 1 + C) % (C : Int) = (C : Int) - 1 := by
    rw [Int.add_emod_self, Int.emod_eq_of_lt (by omega) (by omega)]
  have f3 : ((C : Int) - 1 + 1 + C) % (C : Int) = 0 := by
    rw [show ((C : Int) - 1 + 1 + C) = 0 + (C : Int) * 2 from by ring,
      Int.add_mul_emod_self_left, Int.zero_emod]
  have gR1 : ((0 : Int) - 1 + R) % (R : Int) = (R : Int) - 1 := by
    rw [show ((0 : Int) - 1 + R) = ((R : Int) - 1) from by ring,
      Int.emod_eq_of_lt (by omega) (by omega)]
  have gR2 : ((0 : Int) + R) % (R : Int) = 0 := by
    rw [Int.add_emod_self, Int.zero_emod]
  have gR3 : ((0 : Int) + 1 + R) % (R : Int) = 1 := by
    rw [show ((0 : Int) + 1 + R) = 1 + (R : Int) from by ring,
      Int.add_emod_self, Int.emod_eq_of_lt (by omega) (by omega)]
  have gC1 : ((0 : Int) - 1 + C) % (C : Int) = (C : Int) - 1 := by
    rw [show ((0 : Int) - 1 + C) = ((C : Int) - 1) from by ring,
      Int.emod_eq_of_lt (by omega) (by omega)]
  have gC2 : ((0 : Int) + C) % (C : Int) = 0 := by
    rw [Int.add_emod_self, Int.zero_emod]
  have gC3 : ((0 : Int) + 1 + C) % (C : Int) = 1 := by
    rw [show ((0 : Int) + 1 + C) = 1 + (C : Int) from by ring,
      Int.add_emod_self, Int.emod_eq_of_lt (by omega) (by omega)]
  refine ⟨?_, ?_, ?_⟩
  · unfold count_alive_neighbours
    rw [singleBoard_rows, singleBoard_cols]
    rw [if_neg (by omega),
      pyIndex_of_nonneg_lt R _ (by omega) (by omega),
      pyIndex_of_nonneg_lt C _ (by omega) (by omega)]
    simp only [Option.some.injEq]
    rw [getCell_singleBoard R C _ _ (by omega) (by omega), if_neg (by omega)]
    unfold loopSum
    simp only [wrapAt_singleBoard R C (by omega) (by omega)]
    rw [e1, e2, e3, f1, f2, f3]
    rw [indicator_zero (by omega), indicator_zero (by omega), indicator_zero (by omega),
      indicator_zero (by omega), indicator_zero (by omega), indicator_zero (by omega),
      indicator_zero (by omega), indicator_zero (by omega), indicator_one ⟨rfl, rfl⟩]
    omega
  · unfold count_alive_neighbours
    rw [singleBoard_rows, singleBoard_cols]
    rw [if_neg (by omega),
      pyIndex_of_nonneg_lt R _ (by omega) (by omega),
      pyIndex_of_nonneg_lt C _ (by omega) (by omega)]
    simp only [Option.some.injEq]
    rw [getCell_singleBoard R C _ _ (by omega) (by omega), if_neg (by omega)]
    unfold loopSum
    simp only [wrapAt_singleBoard R C (by omega) (by omega)]
    rw [e1, e2, e3, gC1, gC2, gC3]
    rw [indicator_zero (by omega), indicator_zero (by omega), indicator_zero (by omega),
      indicator_zero (by omega), indicator_zero (by omega), indicator_zero (by omega),
      indicator_zero (by omega), indicator_one ⟨rfl, rfl⟩, indicator_zero (by omega)]
    omega
  · unfold count_alive_neighbours
    rw [singleBoard_rows, singleBoard_cols]
    rw [if_neg (by omega),
      pyIndex_of_nonneg_lt R _ (by omega) (by omega),
      pyIndex_of_nonneg_lt C _ (by omega) (by omega)]
    simp only [Option.some.injEq]
    rw [getCell_singleBoard R C _ _ (by omega) (by omega), if_neg (by omega)]
    unfold loopSum
    simp only [wrapAt_singleBoard R C (by omega) (by omega)]
    rw [gR1, gR2, gR3, f1, f2, f3]
    rw [indicator_zero (by omega), indicator_zero (by omega), indicator_zero (by omega),
      indicator_zero (by omega), indicator_zero (by omega), indicator_one ⟨rfl, rfl⟩,
      indicator_zero (by omega), indicator_zero (by omega), indicator_zero (by omega)]
    omega

/-- Witness for `c6_wrap_neighbours` on the 3 x 3 board. -/
theorem c6_wrap_neighbours_witness :
    count_alive_neighbours (singleBoard 3 3) ((3 : Int) - 1) ((3 : Int) - 1)
      = some 1 ∧
    count_alive_neighbours (singleBoard 3 3) ((3 : Int) - 1) 0 = some 1 ∧
    count_alive_neighbours (singleBoard 3 3) 0 ((3 : Int) - 1) = some 1 :=
  c6_wrap_neighbours 3 3 (by decide) (by decide)

end GameOfLife
